import Mathlib

/-!
The `mailboxes` table of yggmail (`internal/storage/sqlite3/table_mailboxes.go`).

A shallow embedding of `TableMailboxes` and its seven prepared statements.

* The Go functions (`NewTableMailboxes`, `MailboxList`, `MailboxSelect`, `MailboxCreate`,
  `MailboxRename`, `MailboxDelete`, `MailboxSubscribe`) are translated line by line; a Go result
  `(v, error)` is a pair whose second component is `none` for a `nil` error.
* The pieces of `database/sql` they call (`DB.Exec`, `DB.Prepare`, `Stmt.Query`, `Stmt.QueryRow`,
  `Stmt.Exec`, `Row.Err`, `Row.Scan`, `Rows.Scan`) and the meaning of the seven SQL texts on a
  table with `PRIMARY KEY(username, mailbox)` are modelled below.  The contents of the table are
  a list of rows, in the order in which the engine scans them.
-/

namespace Sqlite3

/-! ## Errors -/

/-- Go `error` values that can reach this file: the sentinel `sql.ErrNoRows`, an error reported
by the driver, and an error wrapped by `fmt.Errorf("<context>: %w", err)`. -/
inductive SqlError where
  | ErrNoRows : SqlError
  | driver (msg : String) : SqlError
  | wrapped (context : String) (cause : SqlError) : SqlError
  deriving DecidableEq, Repr

/-- Go `fmt.Errorf(context + ": %w", err)`. -/
def Errorf (context : String) (err : SqlError) : SqlError :=
  SqlError.wrapped context err

/-- The context string of a wrapped error, if it is one. -/
def SqlError.context? : SqlError → Option String
  | SqlError.wrapped c _ => some c
  | _ => none

/-! ## The SQL texts -/

/-- The SQL constants of the file, by their Go names (source lines 19-54). -/
inductive SqlText where
  | mailboxesSchema
  | mailboxesList
  | mailboxesListSubscribed
  | mailboxesSelect
  | mailboxesCreate
  | mailboxesRename
  | mailboxesDelete
  | mailboxesSubscribe
  deriving DecidableEq, Repr

/-- The Go name of each SQL constant. -/
def SqlText.goName : SqlText → String
  | SqlText.mailboxesSchema => "mailboxesSchema"
  | SqlText.mailboxesList => "mailboxesList"
  | SqlText.mailboxesListSubscribed => "mailboxesListSubscribed"
  | SqlText.mailboxesSelect => "mailboxesSelect"
  | SqlText.mailboxesCreate => "mailboxesCreate"
  | SqlText.mailboxesRename => "mailboxesRename"
  | SqlText.mailboxesDelete => "mailboxesDelete"
  | SqlText.mailboxesSubscribe => "mailboxesSubscribe"

/-- A value bound to a placeholder or read from a result column. -/
inductive SqlValue where
  | text (s : String) : SqlValue
  | integer (i : Int) : SqlValue
  deriving DecidableEq, Repr

/-! ## The stored relation -/

/-- One row of `mailboxes` (schema, source lines 19-26); `subscribed` is stored as an integer. -/
structure MailboxRow where
  username : String
  mailbox : String
  subscribed : Int
  deriving DecidableEq, Repr

/-- The part of the database the statements read and write: the `mailboxes` rows in scan order,
the `users.username` values the foreign key refers to, and whether the connection enforces
foreign keys. -/
structure Database where
  foreignKeys : Bool
  users : List String
  mailboxes : List MailboxRow
  deriving DecidableEq, Repr

/-- The row matches `username = u AND mailbox = m`. -/
def MailboxRow.hasKey (r : MailboxRow) (u m : String) : Bool :=
  decide (r.username = u) && decide (r.mailbox = m)

/-- The primary key of a row. -/
def MailboxRow.key (r : MailboxRow) : String × String :=
  (r.username, r.mailbox)

/-- Error of the engine when `PRIMARY KEY(username, mailbox)` would be violated. -/
def uniqueViolation : SqlError :=
  SqlError.driver "UNIQUE constraint failed: mailboxes.username, mailboxes.mailbox"

/-- Error of the engine when `REFERENCES users(username)` would be violated. -/
def foreignKeyViolation : SqlError :=
  SqlError.driver "FOREIGN KEY constraint failed"

/-- Error for a statement run with a method or arguments the file never uses. -/
def misuse : SqlError :=
  SqlError.driver "statement used with arguments it was not prepared for"

/-! ## `database/sql` -/

/-- The handle `*sql.DB` as `NewTableMailboxes` sees it: for each SQL text, the error (if any)
with which `Exec` respectively `Prepare` of that text fails. -/
structure SqlDB where
  execErr : SqlText → Option SqlError
  prepareErr : SqlText → Option SqlError

/-- A prepared statement `*sql.Stmt`: it remembers the text it was prepared from. -/
structure Stmt where
  query : SqlText
  deriving DecidableEq, Repr

/-- Go `db.Exec(sql)` without arguments; only the error is used. -/
def SqlDB.Exec (db : SqlDB) (q : SqlText) : Option SqlError :=
  db.execErr q

/-- Go `db.Prepare(sql)`. -/
def SqlDB.Prepare (db : SqlDB) (q : SqlText) : Except SqlError Stmt :=
  match db.prepareErr q with
  | some err => Except.error err
  | none => Except.ok { query := q }

/-- Go `stmt.Query(args...)`: the result records, each a list of column values.
`mailboxesList`, `mailboxesListSubscribed` and `mailboxesSelect` all select the one column
`mailbox`. -/
def Stmt.Query (s : Stmt) (d : Database) (args : List SqlValue) :
    Except SqlError (List (List SqlValue)) :=
  match s.query, args with
  | SqlText.mailboxesList, [SqlValue.text u] =>
      Except.ok ((d.mailboxes.filter (fun r => decide (r.username = u))).map
        (fun r => [SqlValue.text r.mailbox]))
  | SqlText.mailboxesListSubscribed, [SqlValue.text u] =>
      Except.ok ((d.mailboxes.filter
        (fun r => decide (r.username = u) && decide (r.subscribed = 1))).map
        (fun r => [SqlValue.text r.mailbox]))
  | SqlText.mailboxesSelect, [SqlValue.text u, SqlValue.text m] =>
      Except.ok ((d.mailboxes.filter (fun r => r.hasKey u m)).map
        (fun r => [SqlValue.text r.mailbox]))
  | _, _ => Except.error misuse

/-- Go `*sql.Row`: `QueryRow` stores either the error of the query or its rows. -/
structure Row where
  err : Option SqlError
  rows : List (List SqlValue)
  deriving DecidableEq, Repr

/-- Go `stmt.QueryRow(args...)`: runs `Query`; an error is kept in the `Row`, and an empty
result is not an error at this point. -/
def Stmt.QueryRow (s : Stmt) (d : Database) (args : List SqlValue) : Row :=
  match s.Query d args with
  | Except.error err => { err := some err, rows := [] }
  | Except.ok rows => { err := none, rows := rows }

/-- Go `row.Err()`: the error of the query, without looking at the rows. -/
def Row.Err (r : Row) : Option SqlError :=
  r.err

/-- Go `rows.Scan(&s)` with one `string` destination. -/
def scanString : List SqlValue → Except SqlError String
  | [SqlValue.text s] => Except.ok s
  | [SqlValue.integer i] => Except.ok (toString i)
  | _ => Except.error (SqlError.driver "sql: expected 1 destination arguments in Scan")

/-- Go `row.Scan(&s)`: the stored error if any, `sql.ErrNoRows` when there is no first row,
otherwise the scan of the first row. -/
def Row.Scan (r : Row) : Except SqlError String :=
  match r.err with
  | some err => Except.error err
  | none =>
    match r.rows with
    | [] => Except.error SqlError.ErrNoRows
    | record :: _ => scanString record

/-- One row under `UPDATE mailboxes SET mailbox = new WHERE username = u AND mailbox = old`. -/
def renameRow (new u old : String) (r : MailboxRow) : MailboxRow :=
  if r.hasKey u old then { r with mailbox := new } else r

/-- Rows after `UPDATE mailboxes SET mailbox = new WHERE username = u AND mailbox = old`. -/
def renameRows (new u old : String) (rows : List MailboxRow) : List MailboxRow :=
  rows.map (renameRow new u old)

/-- Rows after `DELETE FROM mailboxes WHERE username = u AND mailbox = m`. -/
def deleteRows (u m : String) (rows : List MailboxRow) : List MailboxRow :=
  rows.filter (fun r => !(r.hasKey u m))

/-- One row under `UPDATE mailboxes SET subscribed = sn WHERE username = u AND mailbox = m`. -/
def subscribeRow (sn : Int) (u m : String) (r : MailboxRow) : MailboxRow :=
  if r.hasKey u m then { r with subscribed := sn } else r

/-- Rows after `UPDATE mailboxes SET subscribed = sn WHERE username = u AND mailbox = m`. -/
def subscribeRows (sn : Int) (u m : String) (rows : List MailboxRow) : List MailboxRow :=
  rows.map (subscribeRow sn u m)

/-- Rows after `INSERT INTO mailboxes (username, mailbox) VALUES(u, m)`: the new row takes the
column default `subscribed = 1`. -/
def insertRow (u m : String) (rows : List MailboxRow) : List MailboxRow :=
  rows ++ [{ username := u, mailbox := m, subscribed := 1 }]

/-- Go `stmt.Exec(args...)` for the four writing statements: the database afterwards and the
error.  A failing statement leaves the database as it was.

* `mailboxesCreate` fails when the key `(u, m)` is already present (primary key) or, with
  foreign keys enforced, when `u` is not a user.
* `mailboxesRename` fails when it moves a row onto the key `(u, new)` and that key would then
  be held by more than one row (primary key).
* `mailboxesDelete` and `mailboxesSubscribe` touch no key and cannot violate a constraint. -/
def Stmt.Exec (s : Stmt) (d : Database) (args : List SqlValue) : Database × Option SqlError :=
  match s.query, args with
  | SqlText.mailboxesCreate, [SqlValue.text u, SqlValue.text m] =>
      if d.mailboxes.any (fun r => r.hasKey u m) then (d, some uniqueViolation)
      else if d.foreignKeys && !(d.users.contains u) then (d, some foreignKeyViolation)
      else ({ d with mailboxes := insertRow u m d.mailboxes }, none)
  | SqlText.mailboxesRename, [SqlValue.text new, SqlValue.text u, SqlValue.text old] =>
      if old ≠ new ∧ d.mailboxes.any (fun r => r.hasKey u old) = true
          ∧ 1 < (renameRows new u old d.mailboxes).countP (fun r => r.hasKey u new) then
        (d, some uniqueViolation)
      else ({ d with mailboxes := renameRows new u old d.mailboxes }, none)
  | SqlText.mailboxesDelete, [SqlValue.text u, SqlValue.text m] =>
      ({ d with mailboxes := deleteRows u m d.mailboxes }, none)
  | SqlText.mailboxesSubscribe, [SqlValue.integer sn, SqlValue.text u, SqlValue.text m] =>
      ({ d with mailboxes := subscribeRows sn u m d.mailboxes }, none)
  | _, _ => (d, some misuse)

/-! ## `table_mailboxes.go` -/

/-- Go `type TableMailboxes struct` (source lines 8-17). -/
structure TableMailboxes where
  db : SqlDB
  selectMailboxes : Stmt
  listMailboxes : Stmt
  listMailboxesSubscribed : Stmt
  createMailbox : Stmt
  renameMailbox : Stmt
  deleteMailbox : Stmt
  subscribeMailbox : Stmt

/-- Go `NewTableMailboxes` (source lines 56-93). -/
def NewTableMailboxes (db : SqlDB) : Except SqlError TableMailboxes :=
  match db.Exec SqlText.mailboxesSchema with
  | some err => Except.error (Errorf "db.Exec" err)
  | none =>
  match db.Prepare SqlText.mailboxesList with
  | Except.error err => Except.error (Errorf "db.Prepare(mailboxesCreate)" err)
  | Except.ok listMailboxes =>
  match db.Prepare SqlText.mailboxesListSubscribed with
  | Except.error err => Except.error (Errorf "db.Prepare(mailboxesCreate)" err)
  | Except.ok listMailboxesSubscribed =>
  match db.Prepare SqlText.mailboxesSelect with
  | Except.error err => Except.error (Errorf "db.Prepare(mailboxesSelect)" err)
  | Except.ok selectMailboxes =>
  match db.Prepare SqlText.mailboxesCreate with
  | Except.error err => Except.error (Errorf "db.Prepare(mailboxesCreate)" err)
  | Except.ok createMailbox =>
  match db.Prepare SqlText.mailboxesDelete with
  | Except.error err => Except.error (Errorf "db.Prepare(mailboxesDelete)" err)
  | Except.ok deleteMailbox =>
  match db.Prepare SqlText.mailboxesRename with
  | Except.error err => Except.error (Errorf "db.Prepare(mailboxesRename)" err)
  | Except.ok renameMailbox =>
  match db.Prepare SqlText.mailboxesSubscribe with
  | Except.error err => Except.error (Errorf "db.Prepare(mailboxesSubscribe)" err)
  | Except.ok subscribeMailbox =>
  Except.ok
    { db := db
      selectMailboxes := selectMailboxes
      listMailboxes := listMailboxes
      listMailboxesSubscribed := listMailboxesSubscribed
      createMailbox := createMailbox
      renameMailbox := renameMailbox
      deleteMailbox := deleteMailbox
      subscribeMailbox := subscribeMailbox }

/-- The loop `for rows.Next()` of `MailboxList` (source lines 106-112), with the slice
`mailboxes` built so far. -/
def scanMailboxes : List (List SqlValue) → List String → List String × Option SqlError
  | [], mailboxes => (mailboxes, none)
  | record :: rest, mailboxes =>
    match scanString record with
    | Except.error err => ([], some (Errorf "rows.Scan" err))
    | Except.ok mailbox => scanMailboxes rest (mailboxes ++ [mailbox])

/-- Go `MailboxList` (source lines 95-114). -/
def MailboxList (t : TableMailboxes) (d : Database) (user : String) (onlySubscribed : Bool) :
    List String × Option SqlError :=
  let stmt := if onlySubscribed then t.listMailboxesSubscribed else t.listMailboxes
  match stmt.Query d [SqlValue.text user] with
  | Except.error err => ([], some (Errorf "t.listMailboxes.Query" err))
  | Except.ok rows => scanMailboxes rows []

/-- Go `MailboxSelect` (source lines 116-128). -/
def MailboxSelect (t : TableMailboxes) (d : Database) (user mailbox : String) :
    Bool × Option SqlError :=
  let row := t.selectMailboxes.QueryRow d [SqlValue.text user, SqlValue.text mailbox]
  match row.Err with
  | some err =>
    if err ≠ SqlError.ErrNoRows then (false, some (Errorf "row.Err" err))
    else (false, none)
  | none =>
    match row.Scan with
    | Except.error err => (false, some (Errorf "row.Scan" err))
    | Except.ok got => (decide (mailbox = got), none)

/-- Go `MailboxCreate` (source lines 130-133). -/
def MailboxCreate (t : TableMailboxes) (d : Database) (user name : String) :
    Database × Option SqlError :=
  t.createMailbox.Exec d [SqlValue.text user, SqlValue.text name]

/-- Go `MailboxRename` (source lines 135-138). -/
def MailboxRename (t : TableMailboxes) (d : Database) (user old new : String) :
    Database × Option SqlError :=
  t.renameMailbox.Exec d [SqlValue.text new, SqlValue.text user, SqlValue.text old]

/-- Go `MailboxDelete` (source lines 140-143). -/
def MailboxDelete (t : TableMailboxes) (d : Database) (user name : String) :
    Database × Option SqlError :=
  t.deleteMailbox.Exec d [SqlValue.text user, SqlValue.text name]

/-- Go `MailboxSubscribe` (source lines 145-152). -/
def MailboxSubscribe (t : TableMailboxes) (d : Database) (user name : String)
    (subscribed : Bool) : Database × Option SqlError :=
  let sn : Int := if !subscribed then 0 else 1
  t.subscribeMailbox.Exec d [SqlValue.integer sn, SqlValue.text user, SqlValue.text name]

/-! ## Notions used in the statements -/

/-- No two rows share both `username` and `mailbox` (the constraint `PRIMARY KEY(username,
mailbox)` of the schema). -/
def KeysUnique (rows : List MailboxRow) : Prop :=
  rows.Pairwise (fun a b => a.key ≠ b.key)

instance (rows : List MailboxRow) : Decidable (KeysUnique rows) :=
  inferInstanceAs (Decidable (rows.Pairwise (fun (a b : MailboxRow) => a.key ≠ b.key)))

/-- A row with `username = u` and `mailbox = m` is stored. -/
def HasRow (d : Database) (u m : String) : Prop :=
  ∃ r, r ∈ d.mailboxes ∧ r.username = u ∧ r.mailbox = m

instance (d : Database) (u m : String) : Decidable (HasRow d u m) :=
  inferInstanceAs (Decidable (∃ r : MailboxRow, r ∈ d.mailboxes ∧ r.username = u ∧ r.mailbox = m))

/-- One call of a writing operation of the store. -/
inductive Call where
  | create (user name : String) : Call
  | rename (user old new : String) : Call
  | delete (user name : String) : Call
  | subscribe (user name : String) (subscribed : Bool) : Call
  deriving DecidableEq, Repr

/-- The effect of one call: the database afterwards and the error returned. -/
def Call.run (t : TableMailboxes) (d : Database) : Call → Database × Option SqlError
  | Call.create user name => MailboxCreate t d user name
  | Call.rename user old new => MailboxRename t d user old new
  | Call.delete user name => MailboxDelete t d user name
  | Call.subscribe user name subscribed => MailboxSubscribe t d user name subscribed

/-- The database after a sequence of calls, each run on the state the previous one left,
whether it returned an error or not. -/
def runCalls (t : TableMailboxes) : Database → List Call → Database
  | d, [] => d
  | d, c :: cs => runCalls t (c.run t d).1 cs

/-- The context that names the statement being prepared, `db.Prepare(<Go name of q>)`: the
pattern of source lines 74, 78, 82, 86 and 90, and the context of the failing operation that
the specification asks for. -/
def prepareContext (q : SqlText) : String :=
  "db.Prepare(" ++ q.goName ++ ")"

/-! ## Concrete inputs -/

/-- A handle on which schema creation and every preparation succeed. -/
def healthyDB : SqlDB :=
  { execErr := fun _ => none, prepareErr := fun _ => none }

/-- A handle on which only preparing the text `q` fails, with the driver error `msg`. -/
def failingPrepare (q : SqlText) (msg : String) : SqlDB :=
  { execErr := fun _ => none
    prepareErr := fun q2 => if q2 = q then some (SqlError.driver msg) else none }

/-- The store `NewTableMailboxes healthyDB` returns. -/
def store : TableMailboxes :=
  { db := healthyDB
    selectMailboxes := { query := SqlText.mailboxesSelect }
    listMailboxes := { query := SqlText.mailboxesList }
    listMailboxesSubscribed := { query := SqlText.mailboxesListSubscribed }
    createMailbox := { query := SqlText.mailboxesCreate }
    renameMailbox := { query := SqlText.mailboxesRename }
    deleteMailbox := { query := SqlText.mailboxesDelete }
    subscribeMailbox := { query := SqlText.mailboxesSubscribe } }

/-- The empty table; `alice` and `bob` are users and foreign keys are enforced. -/
def emptyTable : Database :=
  { foreignKeys := true, users := ["alice", "bob"], mailboxes := [] }

/-- The table of P4: `alice` has `INBOX` (subscribed) and `Trash` (unsubscribed); `bob` has one
mailbox, `Work`. -/
def sampleTable : Database :=
  { foreignKeys := true
    users := ["alice", "bob"]
    mailboxes :=
      [ { username := "alice", mailbox := "INBOX", subscribed := 1 },
        { username := "bob", mailbox := "Work", subscribed := 1 },
        { username := "alice", mailbox := "Trash", subscribed := 0 } ] }

/-- The table of P5: `alice` has the mailbox `Old`, unsubscribed, and `INBOX`. -/
def renameTable : Database :=
  { foreignKeys := true
    users := ["alice", "bob"]
    mailboxes :=
      [ { username := "alice", mailbox := "INBOX", subscribed := 1 },
        { username := "alice", mailbox := "Old", subscribed := 0 },
        { username := "bob", mailbox := "Old", subscribed := 1 } ] }

/-- A table in which `alice` has the mailbox `New` and no mailbox `Old`. -/
def takenTable : Database :=
  { foreignKeys := true
    users := ["alice"]
    mailboxes := [ { username := "alice", mailbox := "New", subscribed := 1 } ] }

/-! ## Lemmas on the model -/

theorem hasKey_iff (r : MailboxRow) (u m : String) :
    r.hasKey u m = true ↔ r.username = u ∧ r.mailbox = m := by
  simp [MailboxRow.hasKey]

theorem any_hasKey_iff (d : Database) (u m : String) :
    d.mailboxes.any (fun r => r.hasKey u m) = true ↔ HasRow d u m := by
  simp [HasRow, List.any_eq_true, hasKey_iff]

theorem Prepare_ok {db : SqlDB} {q : SqlText} {s : Stmt} (h : db.Prepare q = Except.ok s) :
    s = { query := q } := by
  unfold SqlDB.Prepare at h
  split at h
  · contradiction
  · injection h with h
    exact h.symm

theorem NewTableMailboxes_stmts {db : SqlDB} {t : TableMailboxes}
    (h : NewTableMailboxes db = Except.ok t) :
    t.selectMailboxes = { query := SqlText.mailboxesSelect } ∧
    t.listMailboxes = { query := SqlText.mailboxesList } ∧
    t.listMailboxesSubscribed = { query := SqlText.mailboxesListSubscribed } ∧
    t.createMailbox = { query := SqlText.mailboxesCreate } ∧
    t.renameMailbox = { query := SqlText.mailboxesRename } ∧
    t.deleteMailbox = { query := SqlText.mailboxesDelete } ∧
    t.subscribeMailbox = { query := SqlText.mailboxesSubscribe } := by
  unfold NewTableMailboxes at h
  repeat (split at h <;> try contradiction)
  injection h with h
  subst h
  refine ⟨?_, ?_, ?_, ?_, ?_, ?_, ?_⟩ <;> exact Prepare_ok (by assumption)

theorem NewTableMailboxes_healthy : NewTableMailboxes healthyDB = Except.ok store := rfl

theorem scanMailboxes_text (rows : List MailboxRow) (acc : List String) :
    scanMailboxes (rows.map (fun r => [SqlValue.text r.mailbox])) acc
      = (acc ++ rows.map (fun r => r.mailbox), none) := by
  induction rows generalizing acc with
  | nil => simp [scanMailboxes]
  | cons r rest ih => simp [scanMailboxes, scanString, ih]

theorem MailboxList_eq {db : SqlDB} {t : TableMailboxes}
    (h : NewTableMailboxes db = Except.ok t) (d : Database) (u : String) (b : Bool) :
    MailboxList t d u b
      = ((d.mailboxes.filter
            (fun r => decide (r.username = u) && (!b || decide (r.subscribed = 1)))).map
          (fun r => r.mailbox), none) := by
  obtain ⟨-, hl, hs, -⟩ := NewTableMailboxes_stmts h
  cases b <;> simp [MailboxList, hl, hs, Stmt.Query, scanMailboxes_text]

theorem MailboxSelect_eq {db : SqlDB} {t : TableMailboxes}
    (h : NewTableMailboxes db = Except.ok t) (d : Database) (u m : String) :
    MailboxSelect t d u m
      = if HasRow d u m then (true, none)
        else (false, some (Errorf "row.Scan" SqlError.ErrNoRows)) := by
  obtain ⟨hsel, -⟩ := NewTableMailboxes_stmts h
  simp only [MailboxSelect, hsel, Stmt.QueryRow, Stmt.Query, Row.Err, Row.Scan]
  cases hf : d.mailboxes.filter (fun r => r.hasKey u m) with
  | nil =>
    have hno : ¬ HasRow d u m := by
      rintro ⟨r, hr, hk⟩
      have : r ∈ d.mailboxes.filter (fun r => r.hasKey u m) :=
        List.mem_filter.mpr ⟨hr, (hasKey_iff r u m).mpr hk⟩
      rw [hf] at this
      cases this
    simp [hno]
  | cons r rest =>
    have hr : r ∈ d.mailboxes.filter (fun r => r.hasKey u m) := by rw [hf]; simp
    obtain ⟨hmem, hk⟩ := List.mem_filter.mp hr
    have hk2 := (hasKey_iff r u m).mp hk
    have hyes : HasRow d u m := ⟨r, hmem, hk2⟩
    simp [hyes, scanString, hk2.2]

theorem MailboxCreate_eq {db : SqlDB} {t : TableMailboxes}
    (h : NewTableMailboxes db = Except.ok t) (d : Database) (u m : String) :
    MailboxCreate t d u m
      = if HasRow d u m then (d, some uniqueViolation)
        else if d.foreignKeys = true ∧ u ∉ d.users then (d, some foreignKeyViolation)
        else ({ d with mailboxes := insertRow u m d.mailboxes }, none) := by
  obtain ⟨-, -, -, hc, -⟩ := NewTableMailboxes_stmts h
  simp only [MailboxCreate, hc, Stmt.Exec, any_hasKey_iff]
  by_cases h1 : HasRow d u m
  · simp [h1]
  · by_cases h2 : d.foreignKeys = true <;> by_cases h3 : u ∈ d.users <;> simp [h1, h2, h3]

theorem MailboxRename_eq {db : SqlDB} {t : TableMailboxes}
    (h : NewTableMailboxes db = Except.ok t) (d : Database) (u old new : String) :
    MailboxRename t d u old new
      = if old ≠ new ∧ HasRow d u old
          ∧ 1 < (renameRows new u old d.mailboxes).countP (fun r => r.hasKey u new) then
          (d, some uniqueViolation)
        else ({ d with mailboxes := renameRows new u old d.mailboxes }, none) := by
  obtain ⟨-, -, -, -, hr, -⟩ := NewTableMailboxes_stmts h
  simp only [MailboxRename, hr, Stmt.Exec, any_hasKey_iff]

theorem MailboxDelete_eq {db : SqlDB} {t : TableMailboxes}
    (h : NewTableMailboxes db = Except.ok t) (d : Database) (u m : String) :
    MailboxDelete t d u m = ({ d with mailboxes := deleteRows u m d.mailboxes }, none) := by
  obtain ⟨-, -, -, -, -, hd, -⟩ := NewTableMailboxes_stmts h
  simp only [MailboxDelete, hd, Stmt.Exec]

theorem MailboxSubscribe_eq {db : SqlDB} {t : TableMailboxes}
    (h : NewTableMailboxes db = Except.ok t) (d : Database) (u m : String) (b : Bool) :
    MailboxSubscribe t d u m b
      = ({ d with mailboxes := subscribeRows (if b = true then 1 else 0) u m d.mailboxes },
          none) := by
  obtain ⟨-, -, -, -, -, -, hs⟩ := NewTableMailboxes_stmts h
  cases b <;> simp [MailboxSubscribe, hs, Stmt.Exec]

theorem not_hasKey_of_no_row {u m : String} {rows : List MailboxRow}
    (h : ∀ r ∈ rows, ¬ (r.username = u ∧ r.mailbox = m)) {r : MailboxRow} (hr : r ∈ rows) :
    r.hasKey u m = false := by
  rw [Bool.eq_false_iff]
  intro hk
  exact h r hr ((hasKey_iff r u m).mp hk)

theorem renameRow_hit {new u old : String} {r : MailboxRow} (h : r.hasKey u old = true) :
    renameRow new u old r = { r with mailbox := new } := by
  simp [renameRow, h]

theorem renameRow_miss {new u old : String} {r : MailboxRow} (h : ¬ r.hasKey u old = true) :
    renameRow new u old r = r := by
  simp [renameRow, h]

theorem hasKey_renameRow_hit {new u old : String} {r : MailboxRow}
    (h : r.hasKey u old = true) : (renameRow new u old r).hasKey u new = true := by
  rw [renameRow_hit h, hasKey_iff]
  exact ⟨((hasKey_iff r u old).mp h).1, rfl⟩

theorem subscribeRow_key (sn : Int) (u m : String) (r : MailboxRow) :
    (subscribeRow sn u m r).key = r.key := by
  unfold subscribeRow
  split <;> rfl

theorem countP_hasKey_le_one {rows : List MailboxRow} (h : KeysUnique rows) (u m : String) :
    rows.countP (fun r => r.hasKey u m) ≤ 1 := by
  induction rows with
  | nil => simp
  | cons r rest ih =>
    unfold KeysUnique at h
    rw [List.pairwise_cons] at h
    rw [List.countP_cons]
    by_cases hk : r.hasKey u m = true
    · have hz : rest.countP (fun r => r.hasKey u m) = 0 := by
        rw [List.countP_eq_zero]
        intro b hb hbk
        apply h.1 b hb
        have h1 := (hasKey_iff r u m).mp hk
        have h2 := (hasKey_iff b u m).mp hbk
        simp [MailboxRow.key, h1, h2]
      simp [hz, hk]
    · have := ih h.2
      simp [hk, this]

theorem renameRows_of_no_row {new u old : String} {rows : List MailboxRow}
    (h : ∀ r ∈ rows, ¬ (r.username = u ∧ r.mailbox = old)) :
    renameRows new u old rows = rows := by
  unfold renameRows
  conv_rhs => rw [← List.map_id rows]
  apply List.map_congr_left
  intro r hr
  have := not_hasKey_of_no_row h hr
  simp [renameRow, this]

theorem renameRows_same (u m : String) (rows : List MailboxRow) :
    renameRows m u m rows = rows := by
  unfold renameRows
  conv_rhs => rw [← List.map_id rows]
  apply List.map_congr_left
  intro r _
  by_cases hk : r.hasKey u m = true
  · rw [renameRow_hit hk]
    have := ((hasKey_iff r u m).mp hk).2
    cases r
    simp_all
  · rw [renameRow_miss hk]
    rfl

theorem subscribeRows_of_no_row {sn : Int} {u m : String} {rows : List MailboxRow}
    (h : ∀ r ∈ rows, ¬ (r.username = u ∧ r.mailbox = m)) :
    subscribeRows sn u m rows = rows := by
  unfold subscribeRows
  conv_rhs => rw [← List.map_id rows]
  apply List.map_congr_left
  intro r hr
  have := not_hasKey_of_no_row h hr
  simp [subscribeRow, this]

theorem deleteRows_of_no_row {u m : String} {rows : List MailboxRow}
    (h : ∀ r ∈ rows, ¬ (r.username = u ∧ r.mailbox = m)) :
    deleteRows u m rows = rows := by
  unfold deleteRows
  rw [List.filter_eq_self]
  intro r hr
  have := not_hasKey_of_no_row h hr
  simp [this]

theorem no_row_deleteRows (u m : String) (rows : List MailboxRow) :
    ∀ r ∈ deleteRows u m rows, ¬ (r.username = u ∧ r.mailbox = m) := by
  intro r hr hk
  have := (List.mem_filter.mp hr).2
  rw [(hasKey_iff r u m).mpr hk] at this
  simp at this

theorem keysUnique_insert {rows : List MailboxRow} {u m : String} (h : KeysUnique rows)
    (hno : ∀ r ∈ rows, ¬ (r.username = u ∧ r.mailbox = m)) :
    KeysUnique (insertRow u m rows) := by
  unfold KeysUnique insertRow
  rw [List.pairwise_append]
  refine ⟨h, List.pairwise_singleton _ _, ?_⟩
  intro a ha b hb
  rw [List.mem_singleton] at hb
  subst hb
  intro hk
  apply hno a ha
  simp only [MailboxRow.key, Prod.mk.injEq] at hk
  exact hk

theorem keysUnique_delete {rows : List MailboxRow} (u m : String) (h : KeysUnique rows) :
    KeysUnique (deleteRows u m rows) :=
  List.Pairwise.sublist (List.filter_sublist rows) h

theorem keysUnique_subscribe {rows : List MailboxRow} (sn : Int) (u m : String)
    (h : KeysUnique rows) : KeysUnique (subscribeRows sn u m rows) := by
  unfold KeysUnique subscribeRows
  rw [List.pairwise_map]
  refine List.Pairwise.imp ?_ h
  intro a b hab
  rw [subscribeRow_key, subscribeRow_key]
  exact hab

theorem keysUnique_rename {rows : List MailboxRow} {new u old : String} (h : KeysUnique rows)
    (hc : (renameRows new u old rows).countP (fun r => r.hasKey u new) ≤ 1) :
    KeysUnique (renameRows new u old rows) := by
  induction rows with
  | nil => simp [renameRows, KeysUnique]
  | cons r rest ih =>
    unfold KeysUnique at h
    rw [List.pairwise_cons] at h
    have hsplit : renameRows new u old (r :: rest)
        = renameRow new u old r :: renameRows new u old rest := rfl
    rw [hsplit, List.countP_cons] at hc
    have ih2 := ih h.2 (le_trans (Nat.le_add_right _ _) hc)
    rw [hsplit]
    unfold KeysUnique
    rw [List.pairwise_cons]
    refine ⟨?_, ih2⟩
    intro b hb hkey
    obtain ⟨c, hc3, rfl⟩ := List.mem_map.mp hb
    have hrc := h.1 c hc3
    have hpos : ∀ x ∈ rest, (renameRow new u old x).hasKey u new = true →
        0 < (renameRows new u old rest).countP (fun r => r.hasKey u new) := by
      intro x hx hxk
      rw [List.countP_pos_iff]
      exact ⟨renameRow new u old x, List.mem_map.mpr ⟨x, hx, rfl⟩, hxk⟩
    by_cases hr : r.hasKey u old = true
    · by_cases hcc : c.hasKey u old = true
      · apply hrc
        have h1 := (hasKey_iff r u old).mp hr
        have h2 := (hasKey_iff c u old).mp hcc
        simp [MailboxRow.key, h1, h2]
      · have h1 := (hasKey_iff r u old).mp hr
        have hck : (renameRow new u old c).hasKey u new = true := by
          rw [renameRow_hit hr, renameRow_miss hcc] at hkey
          rw [renameRow_miss hcc, hasKey_iff]
          simp only [MailboxRow.key, Prod.mk.injEq] at hkey
          exact ⟨by rw [← hkey.1, h1.1], hkey.2.symm⟩
        have := hpos c hc3 hck
        rw [hasKey_renameRow_hit hr, if_pos rfl] at hc
        omega
    · by_cases hcc : c.hasKey u old = true
      · have h2 := (hasKey_iff c u old).mp hcc
        have hrk : (renameRow new u old r).hasKey u new = true := by
          rw [renameRow_hit hcc, renameRow_miss hr] at hkey
          rw [renameRow_miss hr, hasKey_iff]
          simp only [MailboxRow.key, Prod.mk.injEq] at hkey
          exact ⟨by rw [hkey.1, h2.1], hkey.2⟩
        have := hpos c hc3 (hasKey_renameRow_hit hcc)
        rw [hrk, if_pos rfl] at hc
        omega
      · rw [renameRow_miss hr, renameRow_miss hcc] at hkey
        exact hrc hkey

theorem countP_renameRows_le {rows : List MailboxRow} {new u old : String}
    (h : KeysUnique rows) (hno : ∀ r ∈ rows, ¬ (r.username = u ∧ r.mailbox = new)) :
    (renameRows new u old rows).countP (fun r => r.hasKey u new) ≤ 1 := by
  refine le_trans ?_ (countP_hasKey_le_one h u old)
  unfold renameRows
  rw [List.countP_map]
  apply List.countP_mono_left
  intro r hr hk
  by_cases hit : r.hasKey u old = true
  · exact hit
  · exfalso
    simp only [Function.comp, renameRow_miss hit] at hk
    have := not_hasKey_of_no_row hno hr
    rw [this] at hk
    cases hk

theorem one_lt_countP_renameRows {rows : List MailboxRow} {new u old : String}
    (hne : old ≠ new) (hold : ∃ r, r ∈ rows ∧ r.username = u ∧ r.mailbox = old)
    (hnew : ∃ r, r ∈ rows ∧ r.username = u ∧ r.mailbox = new) :
    1 < (renameRows new u old rows).countP (fun r => r.hasKey u new) := by
  obtain ⟨a, ha, hau, ham⟩ := hold
  obtain ⟨b, hb, hbu, hbm⟩ := hnew
  have hak : a.hasKey u old = true := (hasKey_iff a u old).mpr ⟨hau, ham⟩
  have hbk : ¬ b.hasKey u old = true := by
    intro hk
    exact hne (((hasKey_iff b u old).mp hk).2.symm.trans hbm)
  have hpa : (renameRow new u old a).hasKey u new = true := hasKey_renameRow_hit hak
  have hpb : (renameRow new u old b).hasKey u new = true := by
    rw [renameRow_miss hbk]
    exact (hasKey_iff b u new).mpr ⟨hbu, hbm⟩
  have hab : a ≠ b := by
    intro hab
    rw [hab] at hak
    exact hbk hak
  clear hau ham hbu hbm hak hbk
  induction rows with
  | nil => cases ha
  | cons x xs ih =>
    have hsplit : renameRows new u old (x :: xs)
        = renameRow new u old x :: renameRows new u old xs := rfl
    have hpos : ∀ y ∈ xs, (renameRow new u old y).hasKey u new = true →
        0 < (renameRows new u old xs).countP (fun r => r.hasKey u new) := by
      intro y hy hyk
      rw [List.countP_pos_iff]
      exact ⟨renameRow new u old y, List.mem_map.mpr ⟨y, hy, rfl⟩, hyk⟩
    rw [hsplit, List.countP_cons]
    rcases List.mem_cons.mp ha with hax | hax <;> rcases List.mem_cons.mp hb with hbx | hbx
    · exact absurd (hax.trans hbx.symm) hab
    · subst hax
      have := hpos b hbx hpb
      rw [hpa, if_pos rfl]
      omega
    · subst hbx
      have := hpos a hax hpa
      rw [hpb, if_pos rfl]
      omega
    · have := ih hax hbx
      omega


/-- Which context string the code attaches when preparing `q` fails (source lines 64-91). -/
theorem NewTableMailboxes_failingPrepare (q : SqlText) (msg : String)
    (hq : q ≠ SqlText.mailboxesSchema) :
    NewTableMailboxes (failingPrepare q msg)
      = Except.error (SqlError.wrapped
          (if q = SqlText.mailboxesList ∨ q = SqlText.mailboxesListSubscribed
            then "db.Prepare(mailboxesCreate)" else prepareContext q)
          (SqlError.driver msg)) := by
  cases q
  · exact absurd rfl hq
  all_goals rfl

/-- `NewTableMailboxes` returns a store exactly when schema creation and all seven preparations
succeed. -/
theorem NewTableMailboxes_ok_iff (db : SqlDB) :
    (∃ t, NewTableMailboxes db = Except.ok t) ↔
      db.execErr SqlText.mailboxesSchema = none ∧
      ∀ q, q ≠ SqlText.mailboxesSchema → db.prepareErr q = none := by
  constructor
  · rintro ⟨t, h⟩
    unfold NewTableMailboxes SqlDB.Exec SqlDB.Prepare at h
    repeat (split at h <;> try contradiction)
    refine ⟨by assumption, ?_⟩
    intro q hq
    cases q
    · exact absurd rfl hq
    all_goals
      rename_i h1 _ _ h2 _ _ h3 _ _ h4 _ _ h5 _ _ h6 _ _ h7
      first
        | (split at h1 <;> first | contradiction | assumption)
        | (split at h2 <;> first | contradiction | assumption)
        | (split at h3 <;> first | contradiction | assumption)
        | (split at h4 <;> first | contradiction | assumption)
        | (split at h5 <;> first | contradiction | assumption)
        | (split at h6 <;> first | contradiction | assumption)
        | (split at h7 <;> first | contradiction | assumption)
  · rintro ⟨h0, hp⟩
    unfold NewTableMailboxes SqlDB.Exec SqlDB.Prepare
    simp [h0, hp]

/-! ## The claims -/

/-- C1 (code defect). On the empty table, `MailboxSelect` for a missing row does not return
`(false, nil)`: `row.Err()` is `nil`, the branch for `sql.ErrNoRows` is not taken, and the
`sql.ErrNoRows` of `row.Scan` comes back wrapped as `row.Scan: ...`. -/
theorem MailboxSelect_missing_row_is_error :
    NewTableMailboxes healthyDB = Except.ok store ∧
    ¬ HasRow emptyTable "alice" "INBOX" ∧
    (store.selectMailboxes.QueryRow emptyTable
        [SqlValue.text "alice", SqlValue.text "INBOX"]).Err = none ∧
    MailboxSelect store emptyTable "alice" "INBOX"
      = (false, some (SqlError.wrapped "row.Scan" SqlError.ErrNoRows)) := by
  exact ⟨rfl, by decide, rfl, rfl⟩

/-- C2. The boolean returned by `MailboxSelect(u, n)` is true exactly when a row with username
`u` and mailbox `n` is stored. -/
theorem MailboxSelect_true_iff_row (db : SqlDB) (t : TableMailboxes)
    (h : NewTableMailboxes db = Except.ok t) (d : Database) (u n : String) :
    (MailboxSelect t d u n).1 = true ↔
      ∃ r, r ∈ d.mailboxes ∧ r.username = u ∧ r.mailbox = n := by
  rw [MailboxSelect_eq h]
  by_cases hr : HasRow d u n
  · rw [if_pos hr]
    exact ⟨fun _ => hr, fun _ => rfl⟩
  · rw [if_neg hr]
    exact ⟨fun hf => Bool.noConfusion hf, fun hf => absurd hf hr⟩

/-- Witness of C2: in the sample table `alice` has `INBOX`, and the mailbox `Work` of `bob` does not
count for `alice`. -/
theorem MailboxSelect_true_iff_row_witness :
    ((MailboxSelect store sampleTable "alice" "INBOX").1 = true ↔
      ∃ r, r ∈ sampleTable.mailboxes ∧ r.username = "alice" ∧ r.mailbox = "INBOX") ∧
    (MailboxSelect store sampleTable "alice" "INBOX").1 = true ∧
    (MailboxSelect store sampleTable "alice" "Work").1 = false :=
  ⟨MailboxSelect_true_iff_row healthyDB store rfl sampleTable "alice" "INBOX", rfl, rfl⟩

/-- C3. `MailboxList(u, onlySubscribed)` returns no error and the mailbox names of the rows of
`u`, in scan order, only those with `subscribed = 1` when `onlySubscribed` is set; every name
returned belongs to a row of `u`; and the result is empty when `u` has no such row. -/
theorem MailboxList_spec (db : SqlDB) (t : TableMailboxes)
    (h : NewTableMailboxes db = Except.ok t) (d : Database) (u : String) (onlySubscribed : Bool) :
    MailboxList t d u onlySubscribed
      = (((d.mailboxes.filter
            (fun r => decide (r.username = u ∧ (onlySubscribed = true → r.subscribed = 1)))).map
          (fun r => r.mailbox)), none) ∧
    (∀ n, n ∈ (MailboxList t d u onlySubscribed).1 →
      ∃ r, r ∈ d.mailboxes ∧ r.username = u ∧ r.mailbox = n) ∧
    ((∀ r, r ∈ d.mailboxes →
        ¬ (r.username = u ∧ (onlySubscribed = true → r.subscribed = 1))) →
      MailboxList t d u onlySubscribed = ([], none)) := by
  have heq : MailboxList t d u onlySubscribed
      = (((d.mailboxes.filter
            (fun r => decide (r.username = u ∧ (onlySubscribed = true → r.subscribed = 1)))).map
          (fun r => r.mailbox)), none) := by
    rw [MailboxList_eq h]
    congr 2
    apply List.filter_congr
    intro r _
    cases onlySubscribed <;> simp
  refine ⟨heq, ?_, ?_⟩
  · intro n hn
    rw [heq] at hn
    obtain ⟨r, hr, rfl⟩ := List.mem_map.mp hn
    obtain ⟨hmem, hp⟩ := List.mem_filter.mp hr
    exact ⟨r, hmem, (of_decide_eq_true hp).1, rfl⟩
  · intro hnone
    rw [heq]
    have : d.mailboxes.filter
        (fun r => decide (r.username = u ∧ (onlySubscribed = true → r.subscribed = 1))) = [] := by
      rw [List.filter_eq_nil_iff]
      intro r hr hp
      exact hnone r hr (of_decide_eq_true hp)
    rw [this]
    rfl

/-- Witness of C3 (P4 and P3): with `INBOX` subscribed and `Trash` unsubscribed, listing the
subscribed mailboxes of `alice` gives `INBOX`, listing all gives both, the mailbox of `bob` never
shows up, and a user without mailboxes gets the empty list. -/
theorem MailboxList_spec_witness :
    MailboxList store sampleTable "alice" true = (["INBOX"], none) ∧
    MailboxList store sampleTable "alice" false = (["INBOX", "Trash"], none) ∧
    MailboxList store sampleTable "carol" false = ([], none) :=
  ⟨(MailboxList_spec healthyDB store rfl sampleTable "alice" true).1.trans rfl,
   (MailboxList_spec healthyDB store rfl sampleTable "alice" false).1.trans rfl,
   (MailboxList_spec healthyDB store rfl sampleTable "carol" false).2.2 (by decide)⟩

/-- C4. If `MailboxCreate(u, n)` succeeds, a second `MailboxCreate(u, n)` on the resulting
state fails with the primary-key violation and leaves the database as it is; `u` has exactly
one row named `n`. -/
theorem MailboxCreate_twice_fails (db : SqlDB) (t : TableMailboxes)
    (h : NewTableMailboxes db = Except.ok t) (d d1 : Database) (u n : String)
    (hc : MailboxCreate t d u n = (d1, none)) :
    MailboxCreate t d1 u n = (d1, some uniqueViolation) ∧
    d1.mailboxes.countP (fun r => decide (r.username = u ∧ r.mailbox = n)) = 1 := by
  rw [MailboxCreate_eq h] at hc
  split at hc
  · cases hc
  · rename_i hno
    split at hc
    · cases hc
    · injection hc with hd _
      subst hd
      have hrow : HasRow { d with mailboxes := insertRow u n d.mailboxes } u n :=
        ⟨{ username := u, mailbox := n, subscribed := 1 }, by simp [insertRow], rfl, rfl⟩
      refine ⟨?_, ?_⟩
      · rw [MailboxCreate_eq h, if_pos hrow]
      · show (insertRow u n d.mailboxes).countP _ = 1
        unfold insertRow
        rw [List.countP_append]
        have hz : d.mailboxes.countP (fun r => decide (r.username = u ∧ r.mailbox = n)) = 0 := by
          rw [List.countP_eq_zero]
          intro r hr hp
          exact hno ⟨r, hr, of_decide_eq_true hp⟩
        rw [hz]
        simp

/-- Witness of C4: creating `Drafts` for `alice` in the sample table, twice. -/
theorem MailboxCreate_twice_fails_witness :
    MailboxCreate store sampleTable "alice" "Drafts"
      = ({ sampleTable with
            mailboxes := sampleTable.mailboxes ++ [⟨"alice", "Drafts", 1⟩] }, none) ∧
    MailboxCreate store (MailboxCreate store sampleTable "alice" "Drafts").1 "alice" "Drafts"
      = ((MailboxCreate store sampleTable "alice" "Drafts").1, some uniqueViolation) ∧
    (MailboxCreate store sampleTable "alice" "Drafts").1.mailboxes.countP
      (fun r => decide (r.username = "alice" ∧ r.mailbox = "Drafts")) = 1 :=
  ⟨rfl, MailboxCreate_twice_fails healthyDB store rfl sampleTable
    (MailboxCreate store sampleTable "alice" "Drafts").1 "alice" "Drafts" rfl⟩

/-- The primary key is kept by every single call. -/
theorem keysUnique_run {db : SqlDB} {t : TableMailboxes}
    (h : NewTableMailboxes db = Except.ok t) (d : Database) (c : Call)
    (hd : KeysUnique d.mailboxes) : KeysUnique (c.run t d).1.mailboxes := by
  cases c with
  | create u n =>
    show KeysUnique (MailboxCreate t d u n).1.mailboxes
    rw [MailboxCreate_eq h]
    split
    · exact hd
    · rename_i hno
      split
      · exact hd
      · exact keysUnique_insert hd (fun r hr hk => hno ⟨r, hr, hk⟩)
  | rename u old new =>
    show KeysUnique (MailboxRename t d u old new).1.mailboxes
    rw [MailboxRename_eq h]
    split
    · exact hd
    · rename_i hcond
      show KeysUnique (renameRows new u old d.mailboxes)
      by_cases hne : old = new
      · subst hne
        rw [renameRows_same]
        exact hd
      · by_cases hrow : HasRow d u old
        · apply keysUnique_rename hd
          by_contra hlt
          exact hcond ⟨hne, hrow, Nat.lt_of_not_le hlt⟩
        · rw [renameRows_of_no_row (fun r hr hk => hrow ⟨r, hr, hk⟩)]
          exact hd
  | delete u n =>
    show KeysUnique (MailboxDelete t d u n).1.mailboxes
    rw [MailboxDelete_eq h]
    exact keysUnique_delete u n hd
  | subscribe u n b =>
    show KeysUnique (MailboxSubscribe t d u n b).1.mailboxes
    rw [MailboxSubscribe_eq h]
    exact keysUnique_subscribe _ u n hd

/-- The primary key is kept by every sequence of calls. -/
theorem keysUnique_runCalls {db : SqlDB} {t : TableMailboxes}
    (h : NewTableMailboxes db = Except.ok t) (calls : List Call) (d : Database)
    (hd : KeysUnique d.mailboxes) : KeysUnique (runCalls t d calls).mailboxes := by
  induction calls generalizing d with
  | nil => exact hd
  | cons c cs ih => exact ih _ (keysUnique_run h d c hd)

/-- C5 as stated fails: `alice` already has `New` and has no `Old`; renaming `Old` onto `New`
does not fail, it returns no error (and changes nothing). -/
theorem MailboxRename_onto_taken_name_without_source :
    NewTableMailboxes healthyDB = Except.ok store ∧
    HasRow takenTable "alice" "New" ∧
    "Old" ≠ "New" ∧
    MailboxRename store takenTable "alice" "Old" "New" = (takenTable, none) :=
  ⟨rfl, by decide, by decide, rfl⟩

/-- C5, amended. Starting from the empty table, after any sequence of `MailboxCreate`,
`MailboxRename`, `MailboxDelete` and `MailboxSubscribe` calls, failed ones included, no two rows
share both username and mailbox.  And `MailboxRename(u, old, new)` onto a name `new` that `u`
already has, `new` different from `old`, never changes the database: it fails with the
primary-key violation when a row `(u, old)` exists, and returns no error when none does. -/
theorem keys_unique_invariant (db : SqlDB) (t : TableMailboxes)
    (h : NewTableMailboxes db = Except.ok t) :
    (∀ (foreignKeys : Bool) (users : List String) (calls : List Call),
      KeysUnique (runCalls t ⟨foreignKeys, users, []⟩ calls).mailboxes) ∧
    (∀ (d : Database) (u old new : String), old ≠ new →
      (∃ r, r ∈ d.mailboxes ∧ r.username = u ∧ r.mailbox = new) →
      (MailboxRename t d u old new).1 = d ∧
      ((∃ r, r ∈ d.mailboxes ∧ r.username = u ∧ r.mailbox = old) →
        (MailboxRename t d u old new).2 = some uniqueViolation) ∧
      ((¬ ∃ r, r ∈ d.mailboxes ∧ r.username = u ∧ r.mailbox = old) →
        (MailboxRename t d u old new).2 = none)) := by
  refine ⟨?_, ?_⟩
  · intro fk users calls
    exact keysUnique_runCalls h calls _ List.Pairwise.nil
  · intro d u old new hne hnew
    by_cases hold : ∃ r, r ∈ d.mailboxes ∧ r.username = u ∧ r.mailbox = old
    · have hcond : old ≠ new ∧ HasRow d u old
          ∧ 1 < (renameRows new u old d.mailboxes).countP (fun r => r.hasKey u new) :=
        ⟨hne, hold, one_lt_countP_renameRows hne hold hnew⟩
      rw [MailboxRename_eq h, if_pos hcond]
      exact ⟨rfl, fun _ => rfl, fun hn => absurd hold hn⟩
    · have hcond : ¬ (old ≠ new ∧ HasRow d u old
          ∧ 1 < (renameRows new u old d.mailboxes).countP (fun r => r.hasKey u new)) :=
        fun hc => hold hc.2.1
      rw [MailboxRename_eq h, if_neg hcond,
        renameRows_of_no_row (fun r hr hk => hold ⟨r, hr, hk⟩)]
      exact ⟨rfl, fun hy => absurd hy hold, fun _ => rfl⟩

/-- Witness of C5: a run in which a duplicate create and a rename onto a taken name both fail,
and the rename of `Sent` onto the taken name `INBOX` in the state it leaves. -/
theorem keys_unique_invariant_witness :
    KeysUnique (runCalls store emptyTable
      [Call.create "alice" "INBOX", Call.create "alice" "INBOX", Call.create "alice" "Sent",
       Call.rename "alice" "Sent" "INBOX", Call.subscribe "alice" "Sent" false,
       Call.create "bob" "INBOX", Call.delete "alice" "Nope"]).mailboxes ∧
    MailboxRename store sampleTable "alice" "Trash" "INBOX" = (sampleTable, some uniqueViolation) :=
  ⟨(keys_unique_invariant healthyDB store rfl).1 true ["alice", "bob"] _,
   Prod.ext
    ((keys_unique_invariant healthyDB store rfl).2 sampleTable "alice" "Trash" "INBOX"
      (by decide) (by decide)).1
    (((keys_unique_invariant healthyDB store rfl).2 sampleTable "alice" "Trash" "INBOX"
      (by decide) (by decide)).2.1 (by decide))⟩

/-- C6. With `old ≠ new`, a row `(u, old)` stored and no row `(u, new)`, on a table that
satisfies its primary key: `MailboxRename(u, old, new)` returns no error; the table afterwards
is the original one with the mailbox of that one row replaced by `new`, its flag kept and all other
rows (before and after it) unchanged; then `MailboxSelect(u, old)` yields false and
`MailboxSelect(u, new)` yields true. -/
theorem MailboxRename_moves_row (db : SqlDB) (t : TableMailboxes)
    (h : NewTableMailboxes db = Except.ok t) (d : Database) (u old new : String)
    (hne : old ≠ new) (huniq : KeysUnique d.mailboxes)
    (hold : ∃ r, r ∈ d.mailboxes ∧ r.username = u ∧ r.mailbox = old)
    (hnew : ¬ ∃ r, r ∈ d.mailboxes ∧ r.username = u ∧ r.mailbox = new) :
    (MailboxRename t d u old new).2 = none ∧
    (∃ pre r post, d.mailboxes = pre ++ r :: post ∧ r.username = u ∧ r.mailbox = old ∧
      (MailboxRename t d u old new).1.mailboxes
        = pre ++ { username := u, mailbox := new, subscribed := r.subscribed } :: post) ∧
    (MailboxRename t d u old new).1.users = d.users ∧
    (MailboxRename t d u old new).1.foreignKeys = d.foreignKeys ∧
    (MailboxSelect t (MailboxRename t d u old new).1 u old).1 = false ∧
    MailboxSelect t (MailboxRename t d u old new).1 u new = (true, none) := by
  have hle := @countP_renameRows_le d.mailboxes new u old huniq (fun r hr hk => hnew ⟨r, hr, hk⟩)
  have hcond : ¬ (old ≠ new ∧ HasRow d u old
      ∧ 1 < (renameRows new u old d.mailboxes).countP (fun r => r.hasKey u new)) :=
    fun hc => absurd hc.2.2 (Nat.not_lt.mpr hle)
  have hres : MailboxRename t d u old new
      = ({ d with mailboxes := renameRows new u old d.mailboxes }, none) := by
    rw [MailboxRename_eq h, if_neg hcond]
  obtain ⟨r, hr, hru, hrm⟩ := hold
  obtain ⟨pre, post, hsplit⟩ := List.append_of_mem hr
  have hpair := huniq
  unfold KeysUnique at hpair
  rw [hsplit, List.pairwise_append, List.pairwise_cons] at hpair
  have hpre : ∀ x ∈ pre, ¬ (x.username = u ∧ x.mailbox = old) := by
    intro x hx hk
    apply hpair.2.2 x hx r (List.mem_cons_self _ _)
    simp [MailboxRow.key, hk.1, hk.2, hru, hrm]
  have hpost : ∀ x ∈ post, ¬ (x.username = u ∧ x.mailbox = old) := by
    intro x hx hk
    apply hpair.2.1.1 x hx
    simp [MailboxRow.key, hk.1, hk.2, hru, hrm]
  have hrows : renameRows new u old d.mailboxes
      = pre ++ { username := u, mailbox := new, subscribed := r.subscribed } :: post := by
    rw [hsplit]
    have hmap : renameRows new u old (pre ++ r :: post)
        = renameRows new u old pre ++ renameRow new u old r :: renameRows new u old post := by
      simp [renameRows]
    rw [hmap, renameRows_of_no_row hpre, renameRows_of_no_row hpost,
      renameRow_hit ((hasKey_iff r u old).mpr ⟨hru, hrm⟩), hru]
  have hselOld : ¬ HasRow { d with mailboxes := renameRows new u old d.mailboxes } u old := by
    rintro ⟨x, hx, hxu, hxm⟩
    rw [hrows] at hx
    rcases List.mem_append.mp hx with hx | hx
    · exact hpre x hx ⟨hxu, hxm⟩
    · rcases List.mem_cons.mp hx with hx | hx
      · rw [hx] at hxm
        exact hne hxm.symm
      · exact hpost x hx ⟨hxu, hxm⟩
  have hselNew : HasRow { d with mailboxes := renameRows new u old d.mailboxes } u new :=
    ⟨{ username := u, mailbox := new, subscribed := r.subscribed },
      by rw [hrows]; simp, rfl, rfl⟩
  rw [hres]
  refine ⟨rfl, ⟨pre, r, post, hsplit, hru, hrm, hrows⟩, rfl, rfl, ?_, ?_⟩
  · rw [MailboxSelect_eq h, if_neg hselOld]
  · rw [MailboxSelect_eq h, if_pos hselNew]

/-- Witness of C6 (P5): renaming `Old` to `New` for `alice`; the flag `0` of the row is kept,
the mailbox `Old` of `bob` is untouched. -/
theorem MailboxRename_moves_row_witness :
    MailboxRename store renameTable "alice" "Old" "New"
      = ({ renameTable with
            mailboxes := [⟨"alice", "INBOX", 1⟩, ⟨"alice", "New", 0⟩, ⟨"bob", "Old", 1⟩] },
          none) ∧
    (MailboxSelect store (MailboxRename store renameTable "alice" "Old" "New").1
        "alice" "Old").1 = false ∧
    MailboxSelect store (MailboxRename store renameTable "alice" "Old" "New").1 "alice" "New"
      = (true, none) :=
  ⟨rfl,
   (MailboxRename_moves_row healthyDB store rfl renameTable "alice" "Old" "New"
      (by decide) (by decide) (by decide) (by decide)).2.2.2.2⟩

/-- C7. When no row `(u, n)` is stored, `MailboxRename(u, n, x)` for any `x`,
`MailboxDelete(u, n)` and `MailboxSubscribe(u, n, b)` for any `b` return no error and leave the
database exactly as it was. -/
theorem missing_row_is_noop (db : SqlDB) (t : TableMailboxes)
    (h : NewTableMailboxes db = Except.ok t) (d : Database) (u n : String)
    (hno : ¬ ∃ r, r ∈ d.mailboxes ∧ r.username = u ∧ r.mailbox = n) :
    (∀ x, MailboxRename t d u n x = (d, none)) ∧
    MailboxDelete t d u n = (d, none) ∧
    (∀ b, MailboxSubscribe t d u n b = (d, none)) := by
  have hrows : ∀ r ∈ d.mailboxes, ¬ (r.username = u ∧ r.mailbox = n) :=
    fun r hr hk => hno ⟨r, hr, hk⟩
  refine ⟨?_, ?_, ?_⟩
  · intro x
    have hcond : ¬ (n ≠ x ∧ HasRow d u n
        ∧ 1 < (renameRows x u n d.mailboxes).countP (fun r => r.hasKey u x)) :=
      fun hc => hno hc.2.1
    rw [MailboxRename_eq h, if_neg hcond, renameRows_of_no_row hrows]
  · rw [MailboxDelete_eq h, deleteRows_of_no_row hrows]
  · intro b
    rw [MailboxSubscribe_eq h, subscribeRows_of_no_row hrows]

/-- Witness of C7 (P6): `alice` has no mailbox `Missing`. -/
theorem missing_row_is_noop_witness :
    MailboxRename store sampleTable "alice" "Missing" "X" = (sampleTable, none) ∧
    MailboxDelete store sampleTable "alice" "Missing" = (sampleTable, none) ∧
    MailboxSubscribe store sampleTable "alice" "Missing" false = (sampleTable, none) :=
  ⟨(missing_row_is_noop healthyDB store rfl sampleTable "alice" "Missing" (by decide)).1 "X",
   (missing_row_is_noop healthyDB store rfl sampleTable "alice" "Missing" (by decide)).2.1,
   (missing_row_is_noop healthyDB store rfl sampleTable "alice" "Missing" (by decide)).2.2 false⟩

/-- C8. `MailboxDelete(u, n)` returns no error; afterwards the table holds exactly the rows
that are not `(u, n)`, in their order, and nothing else of the database changes;
`MailboxSelect(u, n)` then yields false; and a second `MailboxDelete(u, n)` returns no error
and leaves the state the first one produced. -/
theorem MailboxDelete_spec (db : SqlDB) (t : TableMailboxes)
    (h : NewTableMailboxes db = Except.ok t) (d : Database) (u n : String) :
    (MailboxDelete t d u n).2 = none ∧
    (MailboxDelete t d u n).1.mailboxes
      = d.mailboxes.filter (fun r => decide (¬ (r.username = u ∧ r.mailbox = n))) ∧
    (MailboxDelete t d u n).1.users = d.users ∧
    (MailboxDelete t d u n).1.foreignKeys = d.foreignKeys ∧
    (MailboxSelect t (MailboxDelete t d u n).1 u n).1 = false ∧
    MailboxDelete t (MailboxDelete t d u n).1 u n = ((MailboxDelete t d u n).1, none) := by
  have hgone : ¬ HasRow (MailboxDelete t d u n).1 u n := by
    rw [MailboxDelete_eq h]
    rintro ⟨r, hr, hk⟩
    exact no_row_deleteRows u n d.mailboxes r hr hk
  refine ⟨?_, ?_, ?_, ?_, ?_, ?_⟩
  · rw [MailboxDelete_eq h]
  · rw [MailboxDelete_eq h]
    show deleteRows u n d.mailboxes = _
    unfold deleteRows
    apply List.filter_congr
    intro r _
    simp [MailboxRow.hasKey]
  · rw [MailboxDelete_eq h]
  · rw [MailboxDelete_eq h]
  · rw [MailboxSelect_eq h, if_neg hgone]
  · rw [MailboxDelete_eq h (MailboxDelete t d u n).1,
      deleteRows_of_no_row (fun r hr hk => hgone ⟨r, hr, hk⟩)]

/-- Witness of C8 (P7): deleting `INBOX` of `alice` twice. -/
theorem MailboxDelete_spec_witness :
    MailboxDelete store sampleTable "alice" "INBOX"
      = ({ sampleTable with mailboxes := [⟨"bob", "Work", 1⟩, ⟨"alice", "Trash", 0⟩] }, none) ∧
    MailboxDelete store (MailboxDelete store sampleTable "alice" "INBOX").1 "alice" "INBOX"
      = ((MailboxDelete store sampleTable "alice" "INBOX").1, none) :=
  ⟨rfl, (MailboxDelete_spec healthyDB store rfl sampleTable "alice" "INBOX").2.2.2.2.2⟩

/-- C9. After a successful `MailboxCreate(u, n)` the new row is stored with `subscribed = 1`
behind the old rows, and `MailboxList(u, true)` contains `n`; `MailboxSubscribe(u, n, false)`
then returns no error and only sets the flag of that row to `0`, so `MailboxList(u, true)` no longer
contains `n` while `MailboxList(u, false)` does and is unchanged; a further
`MailboxSubscribe(u, n, true)` returns no error and restores the state after the create, in
which `MailboxList(u, true)` contains `n` again. -/
theorem subscribe_round_trip (db : SqlDB) (t : TableMailboxes)
    (h : NewTableMailboxes db = Except.ok t) (d d1 : Database) (u n : String)
    (hc : MailboxCreate t d u n = (d1, none)) :
    d1.mailboxes = d.mailboxes ++ [{ username := u, mailbox := n, subscribed := 1 }] ∧
    n ∈ (MailboxList t d1 u true).1 ∧
    (MailboxSubscribe t d1 u n false).2 = none ∧
    (MailboxSubscribe t d1 u n false).1.mailboxes
      = d.mailboxes ++ [{ username := u, mailbox := n, subscribed := 0 }] ∧
    n ∉ (MailboxList t (MailboxSubscribe t d1 u n false).1 u true).1 ∧
    n ∈ (MailboxList t (MailboxSubscribe t d1 u n false).1 u false).1 ∧
    MailboxList t (MailboxSubscribe t d1 u n false).1 u false = MailboxList t d1 u false ∧
    MailboxSubscribe t (MailboxSubscribe t d1 u n false).1 u n true = (d1, none) := by
  rw [MailboxCreate_eq h] at hc
  split at hc
  · cases hc
  · rename_i hno
    split at hc
    · cases hc
    · injection hc with hd _
      subst hd
      have hrows : ∀ r ∈ d.mailboxes, ¬ (r.username = u ∧ r.mailbox = n) :=
        fun r hr hk => hno ⟨r, hr, hk⟩
      have hsub : ∀ sn flag : Int,
          subscribeRows sn u n (d.mailboxes ++ [{ username := u, mailbox := n, subscribed := flag }])
            = d.mailboxes ++ [{ username := u, mailbox := n, subscribed := sn }] := by
        intro sn flag
        have hmap : subscribeRows sn u n
              (d.mailboxes ++ [{ username := u, mailbox := n, subscribed := flag }])
            = subscribeRows sn u n d.mailboxes
              ++ [subscribeRow sn u n { username := u, mailbox := n, subscribed := flag }] := by
          simp [subscribeRows]
        rw [hmap, subscribeRows_of_no_row hrows]
        simp [subscribeRow, MailboxRow.hasKey]
      have hoff : MailboxSubscribe t { d with mailboxes := insertRow u n d.mailboxes } u n false
          = ({ d with mailboxes :=
                d.mailboxes ++ [{ username := u, mailbox := n, subscribed := 0 }] }, none) := by
        rw [MailboxSubscribe_eq h]
        show (_, _) = (_, _)
        congr 2
        exact hsub _ 1
      have hon : MailboxSubscribe t
            { d with mailboxes :=
                d.mailboxes ++ [{ username := u, mailbox := n, subscribed := 0 }] } u n true
          = ({ d with mailboxes := insertRow u n d.mailboxes }, none) := by
        rw [MailboxSubscribe_eq h]
        show (_, _) = (_, _)
        congr 2
        exact hsub _ 0
      rw [hoff]
      refine ⟨rfl, ?_, rfl, rfl, ?_, ?_, ?_, hon⟩
      · rw [MailboxList_eq h]
        simp [insertRow]
      · rw [MailboxList_eq h]
        simp only [List.mem_map, List.mem_filter, not_exists]
        rintro r ⟨⟨hr, hp⟩, hm⟩
        rcases List.mem_append.mp hr with hr | hr
        · simp only [Bool.and_eq_true, decide_eq_true_eq] at hp
          exact hrows r hr ⟨hp.1, hm⟩
        · rw [List.mem_singleton] at hr
          subst hr
          simp at hp
      · rw [MailboxList_eq h]
        simp
      · rw [MailboxList_eq h, MailboxList_eq h]
        simp [insertRow, List.filter_append]

/-- Witness of C9 (P8): `Drafts` for `alice` on the sample table. -/
theorem subscribe_round_trip_witness :
    MailboxCreate store sampleTable "alice" "Drafts"
      = ({ sampleTable with
            mailboxes := sampleTable.mailboxes ++ [⟨"alice", "Drafts", 1⟩] }, none) ∧
    MailboxList store (MailboxCreate store sampleTable "alice" "Drafts").1 "alice" true
      = (["INBOX", "Drafts"], none) ∧
    MailboxList store (MailboxSubscribe store
        (MailboxCreate store sampleTable "alice" "Drafts").1 "alice" "Drafts" false).1 "alice" true
      = (["INBOX"], none) ∧
    MailboxList store (MailboxSubscribe store
        (MailboxCreate store sampleTable "alice" "Drafts").1 "alice" "Drafts" false).1 "alice" false
      = (["INBOX", "Trash", "Drafts"], none) ∧
    MailboxSubscribe store (MailboxSubscribe store
        (MailboxCreate store sampleTable "alice" "Drafts").1 "alice" "Drafts" false).1
        "alice" "Drafts" true
      = ((MailboxCreate store sampleTable "alice" "Drafts").1, none) :=
  ⟨rfl, rfl, rfl, rfl,
   (subscribe_round_trip healthyDB store rfl sampleTable
      (MailboxCreate store sampleTable "alice" "Drafts").1 "alice" "Drafts" rfl).2.2.2.2.2.2.2⟩

/-- C10 (code defect). When preparing `mailboxesList` is the step that fails, the error
returned carries the context `db.Prepare(mailboxesCreate)`, not the context of the statement
that failed; the same happens for `mailboxesListSubscribed`. -/
theorem NewTableMailboxes_names_wrong_statement :
    NewTableMailboxes (failingPrepare SqlText.mailboxesList "disk I/O error")
      = Except.error
          (SqlError.wrapped "db.Prepare(mailboxesCreate)" (SqlError.driver "disk I/O error")) ∧
    prepareContext SqlText.mailboxesList = "db.Prepare(mailboxesList)" ∧
    NewTableMailboxes (failingPrepare SqlText.mailboxesListSubscribed "disk I/O error")
      = Except.error
          (SqlError.wrapped "db.Prepare(mailboxesCreate)" (SqlError.driver "disk I/O error")) ∧
    prepareContext SqlText.mailboxesListSubscribed = "db.Prepare(mailboxesListSubscribed)" ∧
    "db.Prepare(mailboxesCreate)" ≠ "db.Prepare(mailboxesList)" ∧
    "db.Prepare(mailboxesCreate)" ≠ "db.Prepare(mailboxesListSubscribed)" :=
  ⟨rfl, by decide, rfl, by decide, by decide, by decide⟩

end Sqlite3
